import Mathlib

/-!
Verification of the compose-file rule engine (`src/compose/rules.rs`).

The rules and the runner `checks` are embedded from the Rust source.
The alert model (`crate::security`), the compose document model and the
image-reference parser (`parse_image`) live outside the provided source
tree; those are modelled from the specification, as marked on each
definition.
-/

namespace Quibble

/- ## String helpers

Executable embeddings of the Rust `str` predicates used by the rules:
`starts_with`, `ends_with` and `contains` (substring search). -/

/-- Rust `s.starts_with(p)`. -/
def strStarts (s p : String) : Bool :=
  p.toList.isPrefixOf s.toList

/-- Rust `s.ends_with(p)`. -/
def strEnds (s p : String) : Bool :=
  p.toList.isSuffixOf s.toList

/-- Helper for `strContains`: `sub` occurs as a contiguous run in `l`. -/
def listInfixOf (sub : List Char) : List Char → Bool
  | [] => sub.isEmpty
  | c :: cs => sub.isPrefixOf (c :: cs) || listInfixOf sub cs

/-- Rust `s.contains(p)` (substring search). -/
def strContains (s p : String) : Bool :=
  listInfixOf p.toList s.toList

/- ## Alert model

Modelled from the spec: the Rust source imports `Alert`, `RuleID`,
`Severity` and `AlertLocation` from `crate::security`, which is not part
of the provided sources.  The spec describes the alert record, the
five-point severity scale, the tagged rule identifier and the location
record, and fixes the defaults: id `None`, severity `Low`, location with
empty path and unset line/column. -/

/-- Modelled from the spec: location of an alert, `{ path, line?, column? }`. -/
structure AlertLocation where
  path : String
  line : Option Nat
  column : Option Nat
deriving DecidableEq

/-- Modelled from the spec: `AlertLocation::default()` has an empty path and
unset line/column. -/
def AlertLocation.default : AlertLocation :=
  ⟨"", Option.none, Option.none⟩

/-- Modelled from the spec: the tagged rule identifier
(None | Cwe | Owasp | Other). -/
inductive RuleID where
  | none : RuleID
  | cwe (code : String) : RuleID
  | owasp (code : String) : RuleID
  | other (s : String) : RuleID
deriving DecidableEq

/-- Modelled from the spec: the ordered severity scale. -/
inductive Severity where
  | information : Severity
  | low : Severity
  | medium : Severity
  | high : Severity
  | critical : Severity
deriving DecidableEq

/-- Modelled from the spec: an alert record.  The Rust struct's location
field is named `path` (of type `AlertLocation`). -/
structure Alert where
  id : RuleID
  details : String
  severity : Severity
  path : AlertLocation
deriving DecidableEq

/-- Modelled from the spec: `Alert::default()` — id `None`, empty details,
severity `Low` (§9: the default alert severity is Low), default location. -/
def Alert.default : Alert :=
  ⟨RuleID.none, "", Severity.low, AlertLocation.default⟩

/-- An `AlertLocation` with the given path and unset line/column, as built
by every rule that sets a location: `AlertLocation { path: …, ..Default::default() }`. -/
def loc (p : String) : AlertLocation :=
  ⟨p, Option.none, Option.none⟩

/- ## Compose document model

Modelled from the spec: the document model lives in the parent module
(`super::ComposeFile`), outside the provided sources.  Services form a
mapping with a deterministic iteration order; the rules only consume
`services.values()`, so services are embedded as the list of values in
iteration order. -/

/-- Modelled from the spec: one service; all fields optional. -/
structure Service where
  image : Option String
  volumes : Option (List String)
  security_opt : Option (List String)
  sysctls : Option (List String)
  cap_add : Option (List String)
  environment : Option (List String)
deriving DecidableEq

/-- A service with every field absent. -/
def Service.empty : Service :=
  ⟨Option.none, Option.none, Option.none, Option.none, Option.none, Option.none⟩

/-- Modelled from the spec: the parsed compose document.  `services` is the
list of service values in iteration order (`services.values()`). -/
structure ComposeDocument where
  version : String
  services : List Service
deriving DecidableEq

/-- Modelled from the spec: a compose file — a source path and the parsed
document. -/
structure ComposeFile where
  path : String
  compose : ComposeDocument
deriving DecidableEq

/- ## Image reference parser

Modelled from the spec: `Service::parse_image` and the `ImageReference`
type are not in the provided sources.  The spec (§4.2) gives the
decomposition grammar and states the parser fails with `InvalidImage`
exactly when the input is empty or contains whitespace. -/

/-- Modelled from the spec: a decomposed image reference.  The spec names
the registry field `instance`; that word is a Lean keyword, so the field
is called `inst` here. -/
structure ImageReference where
  inst : String
  name : String
  tag : String
  digest : Option String
deriving DecidableEq

/-- Split a character list at every occurrence of `c`. -/
def splitOnChar (c : Char) : List Char → List (List Char)
  | [] => [[]]
  | x :: xs =>
    let r := splitOnChar c xs
    if x = c then [] :: r
    else
      match r with
      | [] => [[x]]
      | h :: t => (x :: h) :: t

/-- Join character lists with separator `c` (inverse of `splitOnChar`). -/
def joinWithChar (c : Char) : List (List Char) → List Char
  | [] => []
  | [x] => x
  | x :: xs => x ++ c :: joinWithChar c xs

/-- Modelled from the spec (§4.2): decompose an image string into
`registry / name : tag @ digest`.

1. split off an optional trailing `@digest`;
2. split at the last `:` that is not part of a host:port (i.e. a `:`
   inside the final `/`-segment); tag defaults to `"latest"`;
3. split the name part at the first `/`; if the left side contains `.`
   or `:` or is `"localhost"` it is the registry, otherwise the registry
   defaults to `"docker.io"`;
4. fails with `InvalidImage` exactly when the input is empty or contains
   whitespace. -/
def parse_image (s : String) : Except String ImageReference :=
  let cs := s.toList
  if cs.isEmpty || cs.any (fun c => c.isWhitespace) then
    Except.error "InvalidImage"
  else
    let step1 : List Char × Option (List Char) :=
      match splitOnChar '@' cs with
      | [] => (cs, Option.none)
      | [r] => (r, Option.none)
      | r :: rest => (r, Option.some (joinWithChar '@' rest))
    let remainder := step1.1
    let segs := splitOnChar '/' remainder
    let lastSeg := segs.getLastD []
    let step2 : List Char × List Char :=
      if lastSeg.contains ':' then
        let ps := splitOnChar ':' lastSeg
        let tag := ps.getLastD []
        let nameLast := joinWithChar ':' ps.dropLast
        (joinWithChar '/' (segs.dropLast ++ [nameLast]), tag)
      else
        (remainder, "latest".toList)
    let namePart := step2.1
    let step3 : List Char × List Char :=
      match splitOnChar '/' namePart with
      | [] => ("docker.io".toList, namePart)
      | [_] => ("docker.io".toList, namePart)
      | left :: rest =>
        if left.contains '.' || left.contains ':' || left = "localhost".toList then
          (left, joinWithChar '/' rest)
        else
          ("docker.io".toList, namePart)
    Except.ok
      ⟨String.mk step3.1, String.mk step3.2, String.mk step2.2,
        step1.2.map String.mk⟩

/-- Modelled from the spec: the `Display` rendering of an image reference
used by `format!("Container Image: {}", container)`:
`registry/name:tag` with an optional `@digest`. -/
def ImageReference.display (r : ImageReference) : String :=
  r.inst ++ "/" ++ r.name ++ ":" ++ r.tag ++
    (match r.digest with
     | Option.some d => "@" ++ d
     | Option.none => "")

/- ## The concrete rules (`src/compose/rules.rs`)

Each Rust rule iterates `compose.services.values()` with a per-service
body; the embedding factors each rule into a per-service function and a
recursion over the service list, appending in emission order. -/

/-- Rule `ComposeVersion::check`: match on `compose.version.as_str()`.  The Rust
`match` on string literals is equality dispatch, embedded as an
if-chain over the same literals in the same order. -/
def composeVersionCheck (cf : ComposeFile) : List Alert :=
  let v := cf.compose.version
  if v = "1" then
    [⟨RuleID.none, "Compose v1", Severity.medium, loc cf.path⟩]
  else if v = "2" ∨ v = "2.0" ∨ v = "2.1" ∨ v = "2.2" ∨ v = "2.3" ∨ v = "2.4" then
    [⟨RuleID.none, "Compose v2 used", Severity.low, loc cf.path⟩]
  else if v = "3" ∨ v = "3.0" ∨ v = "3.1" ∨ v = "3.2" ∨ v = "3.3" ∨ v = "3.4" ∨ v = "3.5" then
    [⟨RuleID.none, "Using old Compose v3 spec, consider upgrading", Severity.low, loc cf.path⟩]
  else
    []

/-- Constant `CONTAINER_REGISTRIES`: the fixed allowed-registry list. -/
def CONTAINER_REGISTRIES : List String :=
  ["docker.io", "ghcr.io"]

/-- Rule `ContainerImages::check`, body for one service.  `Option.none` models
the `panic!` of `service.parse_image().unwrap()` when the parser fails;
otherwise `Option.some` carries the alerts pushed for this service. -/
def containerImagesService (p : String) (s : Service) : Option (List Alert) :=
  match s.image with
  | Option.none => Option.some []
  | Option.some image =>
    if strContains image "$\x7b" then
      Option.some
        [⟨RuleID.none, "Container Image using Environment Variable: " ++ image,
          Severity.low, loc p⟩]
    else
      match parse_image image with
      | Except.error _ => Option.none
      | Except.ok container =>
        Option.some
          ([⟨RuleID.none, "Container Image: " ++ container.display, Severity.low, loc p⟩]
           ++ (if container.tag = "latest" then
                 [⟨RuleID.none, "Container using latest / rolling release tag",
                   Severity.low, loc p⟩]
               else [])
           ++ (if (CONTAINER_REGISTRIES.contains container.inst : Bool) then []
               else
                 [⟨RuleID.none, "Container from unknown registry: " ++ container.inst,
                   Severity.low, loc p⟩]))

/-- Rule `ContainerImages::check` over the service list; a `panic!` in any
service aborts the whole run. -/
def containerImagesServices (p : String) : List Service → Option (List Alert)
  | [] => Option.some []
  | s :: rest =>
    match containerImagesService p s, containerImagesServices p rest with
    | Option.some a, Option.some b => Option.some (a ++ b)
    | _, _ => Option.none

/-- Rule `ContainerImages::check`. -/
def containerImagesCheck (cf : ComposeFile) : Option (List Alert) :=
  containerImagesServices cf.path cf.compose.services

/-- Rule `DockerSocket::check`, body for one service: `volumes.iter().find(..)`
followed by `is_some()`. -/
def dockerSocketService (p : String) (s : Service) : List Alert :=
  match s.volumes with
  | Option.none => []
  | Option.some volumes =>
    if (volumes.find? (fun v => strStarts v "/var/run/docker.sock")).isSome then
      [⟨RuleID.owasp "D04", "Docker Socket being passed into container",
        Severity.high, loc p⟩]
    else []

/-- Rule `DockerSocket::check` over the service list. -/
def dockerSocketServices (p : String) : List Service → List Alert
  | [] => []
  | s :: rest => dockerSocketService p s ++ dockerSocketServices p rest

/-- Rule `DockerSocket::check`. -/
def dockerSocketCheck (cf : ComposeFile) : List Alert :=
  dockerSocketServices cf.path cf.compose.services

/-- The alert pushed by `SecurityOpts` when `security_opt` is absent. -/
def secNotSetAlert (p : String) : Alert :=
  ⟨RuleID.owasp "D04", "Security Opts `no-new-privileges` not set",
    Severity.high, loc p⟩

/-- The alert pushed by `SecurityOpts` for an entry set to `false`. -/
def secFalseAlert (p : String) : Alert :=
  ⟨RuleID.owasp "D04", "Security Opts `no-new-privileges` set to `false`",
    Severity.high, loc p⟩

/-- Rule `SecurityOpts::check`, inner loop over the `security_opt` entries. -/
def securityOptEntries (p : String) : List String → List Alert
  | [] => []
  | o :: rest =>
    (if strStarts o "no-new-privileges" && strEnds o "false" then [secFalseAlert p]
     else [])
    ++ securityOptEntries p rest

/-- Rule `SecurityOpts::check`, body for one service. -/
def securityOptsService (p : String) (s : Service) : List Alert :=
  match s.security_opt with
  | Option.some secopts => securityOptEntries p secopts
  | Option.none => [secNotSetAlert p]

/-- Rule `SecurityOpts::check` over the service list. -/
def securityOptsServices (p : String) : List Service → List Alert
  | [] => []
  | s :: rest => securityOptsService p s ++ securityOptsServices p rest

/-- Rule `SecurityOpts::check`. -/
def securityOptsCheck (cf : ComposeFile) : List Alert :=
  securityOptsServices cf.path cf.compose.services

/-- The `sysctls` header alert, pushed with `..Default::default()`:
its location is the default (empty-path) location, not the file's path. -/
def syscallsHeaderAlert : Alert :=
  ⟨RuleID.none, "Enabling extra syscalls", Severity.low, AlertLocation.default⟩

/-- The `cap_add` header alert, pushed with `..Default::default()`:
its location is the default (empty-path) location, not the file's path.
(The Rust source spells it "Kernal".) -/
def capHeaderAlert : Alert :=
  ⟨RuleID.none, "Using extra Kernal Parameters", Severity.low, AlertLocation.default⟩

/-- Alert for a `net.ipv4.conf.all` sysctl entry. -/
def ipv4Alert (p entry : String) : Alert :=
  ⟨RuleID.none, "IPv4 Kernal Parameters modified: " ++ entry,
    Severity.information, loc p⟩

/-- Alert for a capability entry containing `NET_ADMIN`
(the Rust source spells "privileages"). -/
def netAdminAlert (p : String) : Alert :=
  ⟨RuleID.none, "Container with high networking privileages", Severity.medium, loc p⟩

/-- Alert for a capability entry containing `SYS_ADMIN`. -/
def sysAdminAlert (p : String) : Alert :=
  ⟨RuleID.none, "Container with high system privileages", Severity.medium, loc p⟩

/-- Alert for a capability entry containing `ALL`. -/
def allCapAlert (p : String) : Alert :=
  ⟨RuleID.none, "All capabilities are enabled", Severity.high, loc p⟩

/-- Rule `KernalParameters::check`, loop over `sysctls` entries. -/
def sysctlEntries (p : String) : List String → List Alert
  | [] => []
  | e :: rest =>
    (if strStarts e "net.ipv4.conf.all" then [ipv4Alert p e] else [])
    ++ sysctlEntries p rest

/-- Rule `KernalParameters::check`, first `cap_add` loop: checks `NET_ADMIN`
then `ALL` on each entry. -/
def capEntriesFirst (p : String) : List String → List Alert
  | [] => []
  | c :: rest =>
    (if strContains c "NET_ADMIN" then [netAdminAlert p] else [])
    ++ (if strContains c "ALL" then [allCapAlert p] else [])
    ++ capEntriesFirst p rest

/-- Rule `KernalParameters::check`, second (duplicated) `cap_add` loop: checks
`NET_ADMIN` then `SYS_ADMIN` on each entry. -/
def capEntriesSecond (p : String) : List String → List Alert
  | [] => []
  | c :: rest =>
    (if strContains c "NET_ADMIN" then [netAdminAlert p] else [])
    ++ (if strContains c "SYS_ADMIN" then [sysAdminAlert p] else [])
    ++ capEntriesSecond p rest

/-- Rule `KernalParameters::check`, body for one service: the `sysctls` block,
then the `cap_add` block, then the duplicated `cap_add` block, exactly as
in the Rust source. -/
def kernalParametersService (p : String) (s : Service) : List Alert :=
  (match s.sysctls with
   | Option.none => []
   | Option.some syscalls => syscallsHeaderAlert :: sysctlEntries p syscalls)
  ++ (match s.cap_add with
      | Option.none => []
      | Option.some caps => capHeaderAlert :: capEntriesFirst p caps)
  ++ (match s.cap_add with
      | Option.none => []
      | Option.some caps => capHeaderAlert :: capEntriesSecond p caps)

/-- Rule `KernalParameters::check` over the service list. -/
def kernalParametersServices (p : String) : List Service → List Alert
  | [] => []
  | s :: rest => kernalParametersService p s ++ kernalParametersServices p rest

/-- Rule `KernalParameters::check`. -/
def kernalParametersCheck (cf : ComposeFile) : List Alert :=
  kernalParametersServices cf.path cf.compose.services

/-- The `DEBUG` alert of `EnvironmentVariables`. -/
def debugAlert (p : String) : Alert :=
  ⟨RuleID.cwe "1244", "Debugging enabled in the container", Severity.medium, loc p⟩

/-- The hardcoded-password alert of `EnvironmentVariables`. -/
def pwAlert (p entry : String) : Alert :=
  ⟨RuleID.cwe "215", "Possible Hardcoded password: " ++ entry, Severity.high, loc p⟩

/-- Rule `EnvironmentVariables::check`, loop body for one `environment` entry:
the `DEBUG` test and the `PASSWORD`/`KEY` test, in that order. -/
def envEntryAlerts (p e : String) : List Alert :=
  (if strContains e "DEBUG" then [debugAlert p] else [])
  ++ (if strContains e "PASSWORD" || strContains e "KEY" then [pwAlert p e] else [])

/-- Rule `EnvironmentVariables::check`, loop over the `environment` entries. -/
def envEntries (p : String) : List String → List Alert
  | [] => []
  | e :: rest => envEntryAlerts p e ++ envEntries p rest

/-- Rule `EnvironmentVariables::check`, body for one service. -/
def environmentVariablesService (p : String) (s : Service) : List Alert :=
  match s.environment with
  | Option.none => []
  | Option.some envvars => envEntries p envvars

/-- Rule `EnvironmentVariables::check` over the service list. -/
def environmentVariablesServices (p : String) : List Service → List Alert
  | [] => []
  | s :: rest => environmentVariablesService p s ++ environmentVariablesServices p rest

/-- Rule `EnvironmentVariables::check`.  Note: this rule is defined in the Rust
source but `checks` never invokes it. -/
def environmentVariablesCheck (cf : ComposeFile) : List Alert :=
  environmentVariablesServices cf.path cf.compose.services

/-- The rule runner `checks`: as written in the source it invokes
`ComposeVersion`, `ContainerImages`, `DockerSocket`, `SecurityOpts` and
`KernalParameters` — and not `EnvironmentVariables` — accumulating the
alerts in that order.  `Option.none` models a `panic!` escaping
`ContainerImages`. -/
def checks (cf : ComposeFile) : Option (List Alert) :=
  match containerImagesCheck cf with
  | Option.none => Option.none
  | Option.some imgAlerts =>
    Option.some
      (composeVersionCheck cf ++ imgAlerts ++ dockerSocketCheck cf
        ++ securityOptsCheck cf ++ kernalParametersCheck cf)

/- ## Helper lemmas -/

/-- Appending to a non-empty string is non-empty. -/
theorem str_append_ne_empty (x y : String) (h : x ≠ "") : x ++ y ≠ "" := by
  obtain ⟨xd⟩ := x
  obtain ⟨yd⟩ := y
  cases xd with
  | nil => exact absurd rfl h
  | cons c cs =>
    intro hcontra
    have hdata : (String.mk (c :: cs) ++ String.mk yd).data = [] := by rw [hcontra]
    simp [String.append] at hdata

/-- Lemma: `find?` succeeds exactly when `any` holds. -/
theorem find_isSome_eq_any (l : List String) (f : String → Bool) :
    (l.find? f).isSome = l.any f := by
  induction l with
  | nil => rfl
  | cons x xs ih =>
    simp only [List.find?, List.any]
    cases h : f x <;> simp [ih]

/-- The `SecurityOpts` entry loop emits one `set to false` alert per
matching entry, and nothing else. -/
theorem securityOptEntries_eq_replicate (p : String) (opts : List String) :
    securityOptEntries p opts =
      List.replicate
        ((opts.filter (fun o => strStarts o "no-new-privileges" && strEnds o "false")).length)
        (secFalseAlert p) := by
  induction opts with
  | nil => rfl
  | cons o rest ih =>
    by_cases h : (strStarts o "no-new-privileges" && strEnds o "false") = true
    · simp [securityOptEntries, ih, h, List.replicate_succ]
    · simp [securityOptEntries, ih, h]

/-- The two alerts of `SecurityOpts` are distinct. -/
theorem secNotSetAlert_ne_secFalseAlert (p : String) :
    secNotSetAlert p ≠ secFalseAlert p := by
  intro h
  have hd := congrArg Alert.details h
  simp only [secNotSetAlert, secFalseAlert] at hd
  exact absurd hd (by decide)

/- ## Claims -/

/-- C8. The `ComposeVersion` rule emits exactly one Medium "Compose v1"
alert when the version is `"1"`, one Low "Compose v2 used" alert when it
is one of `"2"…"2.4"`, one Low "Using old Compose v3 spec, consider
upgrading" alert when it is one of `"3"…"3.5"`, and nothing for any other
version string. -/
theorem composeVersion_spec (cf : ComposeFile) :
    composeVersionCheck cf =
      if cf.compose.version = "1" then
        [⟨RuleID.none, "Compose v1", Severity.medium, loc cf.path⟩]
      else if cf.compose.version ∈ ["2", "2.0", "2.1", "2.2", "2.3", "2.4"] then
        [⟨RuleID.none, "Compose v2 used", Severity.low, loc cf.path⟩]
      else if cf.compose.version ∈ ["3", "3.0", "3.1", "3.2", "3.3", "3.4", "3.5"] then
        [⟨RuleID.none, "Using old Compose v3 spec, consider upgrading", Severity.low, loc cf.path⟩]
      else [] := by
  simp [composeVersionCheck, List.mem_cons]

/-- C7. For every service, the `DockerSocket` rule emits exactly one High
`Owasp("D04")` "Docker Socket being passed into container" alert when some
volume entry starts with `/var/run/docker.sock`, regardless of how many
entries match, and no alert when no entry matches or `volumes` is absent. -/
theorem dockerSocket_spec (p : String) (s : Service) :
    (s.volumes = Option.none → dockerSocketService p s = []) ∧
    (∀ vols, s.volumes = Option.some vols →
      dockerSocketService p s =
        if vols.any (fun v => strStarts v "/var/run/docker.sock") then
          [⟨RuleID.owasp "D04", "Docker Socket being passed into container",
            Severity.high, loc p⟩]
        else []) := by
  constructor
  · intro h
    simp [dockerSocketService, h]
  · intro vols h
    simp only [dockerSocketService, h, find_isSome_eq_any]

/-- Witness for C7: a service with two matching volume entries yields a
single docker-socket alert. -/
theorem dockerSocket_spec_witness :
    dockerSocketService "f.yml"
        ⟨Option.none,
         Option.some ["/var/run/docker.sock:/var/run/docker.sock", "/var/run/docker.sock:/x"],
         Option.none, Option.none, Option.none, Option.none⟩ =
      [⟨RuleID.owasp "D04", "Docker Socket being passed into container",
        Severity.high, loc "f.yml"⟩] := by
  have h := (dockerSocket_spec "f.yml"
      ⟨Option.none,
       Option.some ["/var/run/docker.sock:/var/run/docker.sock", "/var/run/docker.sock:/x"],
       Option.none, Option.none, Option.none, Option.none⟩).2
      ["/var/run/docker.sock:/var/run/docker.sock", "/var/run/docker.sock:/x"] rfl
  rw [h]
  decide

/-- C5. For every service, the `SecurityOpts` rule emits the single High
`Owasp("D04")` "not set" alert exactly when `security_opt` is absent; when
it is present the rule emits one "set to `false`" alert per entry that
begins with `no-new-privileges` and ends with `false` (so an empty list
yields no alerts). -/
theorem securityOpts_spec (p : String) (s : Service) :
    (s.security_opt = Option.none → securityOptsService p s = [secNotSetAlert p]) ∧
    (∀ opts, s.security_opt = Option.some opts →
      securityOptsService p s =
        List.replicate
          ((opts.filter (fun o => strStarts o "no-new-privileges" && strEnds o "false")).length)
          (secFalseAlert p)) ∧
    (secNotSetAlert p ∈ securityOptsService p s ↔ s.security_opt = Option.none) := by
  refine ⟨fun h => by simp [securityOptsService, h], fun opts h => ?_, ?_⟩
  · simp [securityOptsService, h, securityOptEntries_eq_replicate]
  · cases hso : s.security_opt with
    | none => simp [securityOptsService, hso]
    | some opts =>
      simp only [securityOptsService, hso, securityOptEntries_eq_replicate,
        List.mem_replicate]
      exact ⟨fun hmem => absurd hmem.2 (secNotSetAlert_ne_secFalseAlert p),
             fun hcontra => absurd hcontra (by simp)⟩

/-- Witness for C5: `security_opt` absent yields the "not set" alert,
`security_opt := ["no-new-privileges:false"]` yields the "set to false"
alert, and `security_opt := []` yields nothing. -/
theorem securityOpts_spec_witness :
    securityOptsService "f.yml" Service.empty = [secNotSetAlert "f.yml"] ∧
    securityOptsService "f.yml"
        ⟨Option.none, Option.none, Option.some ["no-new-privileges:false"],
         Option.none, Option.none, Option.none⟩ = [secFalseAlert "f.yml"] ∧
    securityOptsService "f.yml"
        ⟨Option.none, Option.none, Option.some [], Option.none, Option.none,
         Option.none⟩ = [] := by
  refine ⟨(securityOpts_spec "f.yml" Service.empty).1 rfl, ?_, ?_⟩
  · have h := (securityOpts_spec "f.yml"
        ⟨Option.none, Option.none, Option.some ["no-new-privileges:false"],
         Option.none, Option.none, Option.none⟩).2.1 ["no-new-privileges:false"] rfl
    rw [h]
    decide
  · have h := (securityOpts_spec "f.yml"
        ⟨Option.none, Option.none, Option.some [], Option.none, Option.none,
         Option.none⟩).2.1 [] rfl
    rw [h]
    decide

/-- The `EnvironmentVariables` entry loop emits one `Cwe("1244")` debug
alert per entry containing `DEBUG`, and no other `Cwe("1244")` alert. -/
theorem envEntries_filter_1244 (p : String) (envs : List String) :
    (envEntries p envs).filter (fun a => decide (a.id = RuleID.cwe "1244"))
      = List.replicate ((envs.filter (fun e => strContains e "DEBUG")).length)
          (debugAlert p) := by
  induction envs with
  | nil => rfl
  | cons e rest ih =>
    cases hd : strContains e "DEBUG" <;>
      cases hp : (strContains e "PASSWORD" || strContains e "KEY") <;>
        simp [envEntries, envEntryAlerts, hd, hp, ih, List.filter_append,
          List.replicate_succ, debugAlert, pwAlert]

/-- The `Cwe("215")` alerts of the `EnvironmentVariables` entry loop are
exactly the hardcoded-password alerts of the entries containing `PASSWORD`
or `KEY`, one per matching entry with that entry in the details, in entry
order. -/
theorem envEntries_filter_215 (p : String) (envs : List String) :
    (envEntries p envs).filter (fun a => decide (a.id = RuleID.cwe "215"))
      = (envs.filter (fun e => strContains e "PASSWORD" || strContains e "KEY")).map
          (pwAlert p) := by
  induction envs with
  | nil => rfl
  | cons e rest ih =>
    cases hd : strContains e "DEBUG" <;>
      cases hp : (strContains e "PASSWORD" || strContains e "KEY") <;>
        simp [envEntries, envEntryAlerts, hd, hp, ih, List.filter_append,
          debugAlert, pwAlert]

/-- Every alert of the `EnvironmentVariables` entry loop is the debug alert
or the hardcoded-password alert of some matching entry. -/
theorem envEntries_mem (p : String) (envs : List String) :
    ∀ a ∈ envEntries p envs,
      a = debugAlert p ∨
        ∃ e ∈ envs, (strContains e "PASSWORD" || strContains e "KEY") = true
          ∧ a = pwAlert p e := by
  induction envs with
  | nil =>
    intro a ha
    simp [envEntries] at ha
  | cons e rest ih =>
    intro a ha
    simp only [envEntries, envEntryAlerts, List.mem_append] at ha
    rcases ha with (ha | ha) | ha
    · split at ha
      · left
        simpa using ha
      · simp at ha
    · split at ha
      case isTrue hcond =>
        right
        exact ⟨e, List.mem_cons_self e rest, hcond, by simpa using ha⟩
      case isFalse hcond =>
        simp at ha
    · rcases ih a ha with h | ⟨e', he', hc, ha'⟩
      · left
        exact h
      · right
        exact ⟨e', List.mem_cons_of_mem e he', hc, ha'⟩

/-- C9. For every service with `environment` present, the
`EnvironmentVariables` rule emits one Medium `Cwe("1244")` "Debugging
enabled in the container" alert per entry containing `DEBUG`, and, for
each entry containing `PASSWORD` or `KEY`, that entry's own High
`Cwe("215")` "Possible Hardcoded password: <entry>" alert (the 215-alerts
are exactly the matching entries' alerts, in entry order, so both alerts
fire for an entry matching both tests), and nothing else. -/
theorem environmentVariables_spec (p : String) (s : Service) (envs : List String)
    (h : s.environment = Option.some envs) :
    (environmentVariablesService p s).filter (fun a => decide (a.id = RuleID.cwe "1244"))
        = List.replicate ((envs.filter (fun e => strContains e "DEBUG")).length)
            (debugAlert p)
    ∧ (environmentVariablesService p s).filter
          (fun a => decide (a.id = RuleID.cwe "215"))
        = (envs.filter (fun e => strContains e "PASSWORD" || strContains e "KEY")).map
            (pwAlert p)
    ∧ ∀ a ∈ environmentVariablesService p s,
        a = debugAlert p ∨
          ∃ e ∈ envs, (strContains e "PASSWORD" || strContains e "KEY") = true
            ∧ a = pwAlert p e := by
  simp only [environmentVariablesService, h]
  exact ⟨envEntries_filter_1244 p envs, envEntries_filter_215 p envs,
    envEntries_mem p envs⟩

/-- Witness for C9: `environment = ["API_KEY=abc", "DEBUG=1"]` yields one
debug alert (for the `DEBUG=1` entry) and exactly the `API_KEY=abc`
entry's hardcoded-password alert. -/
theorem environmentVariables_spec_witness :
    (environmentVariablesService "f.yml"
        ⟨Option.none, Option.none, Option.none, Option.none, Option.none,
         Option.some ["API_KEY=abc", "DEBUG=1"]⟩).filter
        (fun a => decide (a.id = RuleID.cwe "1244"))
      = [debugAlert "f.yml"]
    ∧ (environmentVariablesService "f.yml"
        ⟨Option.none, Option.none, Option.none, Option.none, Option.none,
         Option.some ["API_KEY=abc", "DEBUG=1"]⟩).filter
        (fun a => decide (a.id = RuleID.cwe "215"))
      = [pwAlert "f.yml" "API_KEY=abc"] := by
  have h := environmentVariables_spec "f.yml"
      ⟨Option.none, Option.none, Option.none, Option.none, Option.none,
       Option.some ["API_KEY=abc", "DEBUG=1"]⟩
      ["API_KEY=abc", "DEBUG=1"] rfl
  refine ⟨?_, ?_⟩
  · rw [h.1]
    decide
  · rw [h.2.1]
    decide

/-- C10. An `environment` entry containing both `PASSWORD` and `KEY`
produces exactly one `Cwe("215")` hardcoded-password alert, because the
Rust source tests `contains("PASSWORD") || contains("KEY")` with a single
push. -/
theorem env_password_key_single (p e : String)
    (h1 : strContains e "PASSWORD" = true) (_h2 : strContains e "KEY" = true) :
    (envEntryAlerts p e).filter (fun a => decide (a.id = RuleID.cwe "215"))
      = [pwAlert p e] := by
  have hp : (strContains e "PASSWORD" || strContains e "KEY") = true := by
    rw [h1]
    rfl
  cases hd : strContains e "DEBUG" <;>
    simp [envEntryAlerts, hd, hp, debugAlert, pwAlert]

/-- Witness for C10: the entry `PASSWORD_KEY=x` contains both substrings
yet yields a single hardcoded-password alert. -/
theorem env_password_key_single_witness :
    (envEntryAlerts "f.yml" "PASSWORD_KEY=x").filter
        (fun a => decide (a.id = RuleID.cwe "215"))
      = [pwAlert "f.yml" "PASSWORD_KEY=x"] :=
  env_password_key_single "f.yml" "PASSWORD_KEY=x" (by decide) (by decide)

/-- A document whose only service has `environment = ["DEBUG=1"]` and no
other field. -/
def cfDebugDoc : ComposeFile :=
  ⟨"docker-compose.yml", ⟨"3.8",
    [⟨Option.none, Option.none, Option.none, Option.none, Option.none,
      Option.some ["DEBUG=1"]⟩]⟩⟩

/-- C1. The runner `checks` as written invokes only five rules: on a
document whose service has `environment = ["DEBUG=1"]` it returns only the
`SecurityOpts` "not set" alert, while the `EnvironmentVariables` rule run
on its own would emit the `Cwe("1244")` debug alert — which is therefore
missing from the output of `checks`. -/
theorem checks_omits_environmentVariables :
    checks cfDebugDoc = Option.some [secNotSetAlert "docker-compose.yml"]
    ∧ environmentVariablesCheck cfDebugDoc = [debugAlert "docker-compose.yml"]
    ∧ debugAlert "docker-compose.yml" ∉ [secNotSetAlert "docker-compose.yml"] := by
  decide

/-- A document whose only service has the image `"bad image"` (whitespace,
no `${`), which the image parser rejects. -/
def cfBadImage : ComposeFile :=
  ⟨"docker-compose.yml", ⟨"3.8",
    [⟨Option.some "bad image", Option.none, Option.none, Option.none,
      Option.none, Option.none⟩]⟩⟩

/-- C3. On an image string that the parser rejects as `InvalidImage`, the
`ContainerImages` rule does not skip and continue: the
`parse_image().unwrap()` panics and the whole run aborts (modelled as
`checks` returning `Option.none`). -/
theorem checks_panics_on_invalid_image :
    strContains "bad image" "$\x7b" = false
    ∧ (parse_image "bad image").isOk = false
    ∧ checks cfBadImage = Option.none := by
  decide

/-- A service with `cap_add = ["NET_ADMIN", "SYS_ADMIN", "ALL"]` and no
other field. -/
def svcCapY : Service :=
  ⟨Option.none, Option.none, Option.none, Option.none,
    Option.some ["NET_ADMIN", "SYS_ADMIN", "ALL"], Option.none⟩

/-- C4. The `KernalParameters` rule iterates `cap_add` twice: on
`cap_add = ["NET_ADMIN", "SYS_ADMIN", "ALL"]` it emits six alerts — the
header, `NET_ADMIN`, `ALL`, then the header again, `NET_ADMIN` again and
`SYS_ADMIN` — not the four of a single pass. -/
theorem kernal_cap_add_duplicated :
    kernalParametersService "docker-compose.yml" svcCapY =
      [capHeaderAlert, netAdminAlert "docker-compose.yml",
       allCapAlert "docker-compose.yml", capHeaderAlert,
       netAdminAlert "docker-compose.yml", sysAdminAlert "docker-compose.yml"]
    ∧ (kernalParametersService "docker-compose.yml" svcCapY).length = 6 := by
  decide

/-- Membership in the fixed registry list, spelled out. -/
theorem registries_contains (x : String) :
    (CONTAINER_REGISTRIES.contains x = true) ↔ (x = "docker.io" ∨ x = "ghcr.io") := by
  simp [CONTAINER_REGISTRIES]

/-- C6 (amended).  For a service with `image` present: an image containing
`${` yields exactly the one environment-variable alert and no further
checks; otherwise, when the image parser succeeds, the rule emits the
informational resolved-image alert, plus the Low latest-tag alert exactly
when the tag is `latest`, plus the Low unknown-registry alert exactly when
the registry is neither `docker.io` nor `ghcr.io`; when the parser fails
the rule panics (`Option.none`) instead of emitting the alerts. -/
theorem containerImages_amended (p : String) (s : Service) :
    (s.image = Option.none → containerImagesService p s = Option.some []) ∧
    (∀ img, s.image = Option.some img → strContains img "$\x7b" = true →
      containerImagesService p s =
        Option.some
          [⟨RuleID.none, "Container Image using Environment Variable: " ++ img,
            Severity.low, loc p⟩]) ∧
    (∀ img ref, s.image = Option.some img → strContains img "$\x7b" = false →
      parse_image img = Except.ok ref →
      containerImagesService p s =
        Option.some
          ([⟨RuleID.none, "Container Image: " ++ ref.display, Severity.low, loc p⟩]
            ++ (if ref.tag = "latest" then
                  [⟨RuleID.none, "Container using latest / rolling release tag",
                    Severity.low, loc p⟩]
                else [])
            ++ (if ref.inst = "docker.io" ∨ ref.inst = "ghcr.io" then []
                else
                  [⟨RuleID.none, "Container from unknown registry: " ++ ref.inst,
                    Severity.low, loc p⟩]))) ∧
    (∀ img err, s.image = Option.some img → strContains img "$\x7b" = false →
      parse_image img = Except.error err →
      containerImagesService p s = Option.none) := by
  refine ⟨?_, ?_, ?_, ?_⟩
  · intro h
    simp [containerImagesService, h]
  · intro img h hc
    simp [containerImagesService, h, hc]
  · intro img ref h hc hparse
    by_cases hreg : ref.inst = "docker.io" ∨ ref.inst = "ghcr.io"
    · have hb : ref.inst ∈ CONTAINER_REGISTRIES := by
        simpa [CONTAINER_REGISTRIES] using hreg
      simp [containerImagesService, h, hc, hparse, hreg, hb]
    · have hb : ref.inst ∉ CONTAINER_REGISTRIES := by
        simpa [CONTAINER_REGISTRIES] using hreg
      simp [containerImagesService, h, hc, hparse, hreg, hb]
  · intro img err h hc hparse
    simp [containerImagesService, h, hc, hparse]

/-- A service whose image is the empty string (no `${`, rejected by the
parser). -/
def svcEmptyImage : Service :=
  ⟨Option.some "", Option.none, Option.none, Option.none, Option.none,
    Option.none⟩

/-- Counterexample to C6 as stated: for the image `""` (which does not
contain `${`), the rule emits no informational alert at all — the parse
fails and the `unwrap` panics (`Option.none`). -/
theorem containerImages_counterexample :
    svcEmptyImage.image = Option.some ""
    ∧ strContains "" "$\x7b" = false
    ∧ containerImagesService "docker-compose.yml" svcEmptyImage = Option.none := by
  decide

/-- Witness for C6 (amended): the image `nginx` resolves to
`docker.io/nginx:latest`, so the rule emits the informational alert and
the latest-tag alert and no unknown-registry alert. -/
theorem containerImages_amended_witness :
    containerImagesService "f.yml"
        ⟨Option.some "nginx", Option.none, Option.none, Option.none,
         Option.none, Option.none⟩ =
      Option.some
        [⟨RuleID.none, "Container Image: docker.io/nginx:latest", Severity.low, loc "f.yml"⟩,
         ⟨RuleID.none, "Container using latest / rolling release tag", Severity.low, loc "f.yml"⟩] := by
  have h := (containerImages_amended "f.yml"
      ⟨Option.some "nginx", Option.none, Option.none, Option.none,
       Option.none, Option.none⟩).2.2.1 "nginx"
      ⟨"docker.io", "nginx", "latest", Option.none⟩ rfl (by decide) rfl
  rw [h]
  decide

/- ## C2: details and location of every alert of `checks` -/

/-- What actually holds of every alert of `checks`: non-empty details, and
the document's path as location — except for the two `KernalParameters`
header alerts, which are pushed with `..Default::default()` and therefore
carry the default empty path. -/
def alertOk (p : String) (a : Alert) : Prop :=
  a.details ≠ "" ∧
    (a.path.path = p ∨
      ((a.details = "Enabling extra syscalls" ∨
        a.details = "Using extra Kernal Parameters") ∧ a.path.path = ""))

/-- An alert located at `loc p` with non-empty details satisfies `alertOk`. -/
theorem alertOk_loc (p : String) (i : RuleID) (d : String) (sev : Severity)
    (h : d ≠ "") : alertOk p ⟨i, d, sev, loc p⟩ :=
  ⟨h, Or.inl rfl⟩

/-- Every `ComposeVersion` alert satisfies `alertOk`. -/
theorem composeVersion_alertOk (cf : ComposeFile) :
    ∀ a ∈ composeVersionCheck cf, alertOk cf.path a := by
  intro a ha
  unfold composeVersionCheck at ha
  dsimp only at ha
  split_ifs at ha
  all_goals
    first
      | exact absurd ha (List.not_mem_nil a)
      | (simp only [List.mem_singleton] at ha
         subst ha
         exact alertOk_loc _ _ _ _ (by simp))

/-- Every per-service `ContainerImages` alert satisfies `alertOk`. -/
theorem containerImagesService_alertOk (p : String) (s : Service) (l : List Alert)
    (h : containerImagesService p s = Option.some l) :
    ∀ a ∈ l, alertOk p a := by
  unfold containerImagesService at h
  split at h
  · injection h with h
    subst h
    intro a ha
    simp at ha
  · split at h
    · injection h with h
      subst h
      intro a ha
      simp only [List.mem_singleton] at ha
      subst ha
      exact alertOk_loc _ _ _ _
        (str_append_ne_empty _ _ (by simp))
    · split at h
      · simp at h
      · injection h with h
        subst h
        intro a ha
        simp only [List.append_assoc, List.mem_append] at ha
        rcases ha with ha | ha | ha
        · simp only [List.mem_singleton] at ha
          subst ha
          exact alertOk_loc _ _ _ _
            (str_append_ne_empty _ _ (by simp))
        · split at ha
          · simp only [List.mem_singleton] at ha
            subst ha
            exact alertOk_loc _ _ _ _ (by simp)
          · simp at ha
        · split at ha
          · simp at ha
          · simp only [List.mem_singleton] at ha
            subst ha
            exact alertOk_loc _ _ _ _
              (str_append_ne_empty _ _ (by simp))

/-- Every `ContainerImages` alert satisfies `alertOk`. -/
theorem containerImagesServices_alertOk (p : String) (ss : List Service)
    (l : List Alert) (h : containerImagesServices p ss = Option.some l) :
    ∀ a ∈ l, alertOk p a := by
  induction ss generalizing l with
  | nil =>
    injection h with h
    subst h
    intro a ha
    simp at ha
  | cons s rest ih =>
    cases hs : containerImagesService p s with
    | none =>
      unfold containerImagesServices at h
      rw [hs] at h
      simp at h
    | some a =>
      cases hr : containerImagesServices p rest with
      | none =>
        unfold containerImagesServices at h
        rw [hs, hr] at h
        simp at h
      | some b =>
        unfold containerImagesServices at h
        rw [hs, hr] at h
        injection h with h
        subst h
        intro x hx
        rcases List.mem_append.mp hx with hx | hx
        · exact containerImagesService_alertOk p s a hs x hx
        · exact ih b hr x hx

/-- Every per-service `DockerSocket` alert satisfies `alertOk`. -/
theorem dockerSocketService_alertOk (p : String) (s : Service) :
    ∀ a ∈ dockerSocketService p s, alertOk p a := by
  intro a ha
  unfold dockerSocketService at ha
  split at ha
  · simp at ha
  · split at ha
    · simp only [List.mem_singleton] at ha
      subst ha
      exact alertOk_loc _ _ _ _ (by simp)
    · simp at ha

/-- Every `DockerSocket` alert satisfies `alertOk`. -/
theorem dockerSocketServices_alertOk (p : String) (ss : List Service) :
    ∀ a ∈ dockerSocketServices p ss, alertOk p a := by
  induction ss with
  | nil =>
    intro a ha
    simp [dockerSocketServices] at ha
  | cons s rest ih =>
    intro a ha
    rcases List.mem_append.mp ha with ha | ha
    · exact dockerSocketService_alertOk p s a ha
    · exact ih a ha

/-- Every per-service `SecurityOpts` alert satisfies `alertOk`. -/
theorem securityOptsService_alertOk (p : String) (s : Service) :
    ∀ a ∈ securityOptsService p s, alertOk p a := by
  intro a ha
  unfold securityOptsService at ha
  split at ha
  · rw [securityOptEntries_eq_replicate] at ha
    rw [List.eq_of_mem_replicate ha]
    exact alertOk_loc _ _ _ _ (by simp [secFalseAlert])
  · simp only [List.mem_singleton] at ha
    subst ha
    exact alertOk_loc _ _ _ _ (by simp [secNotSetAlert])

/-- Every `SecurityOpts` alert satisfies `alertOk`. -/
theorem securityOptsServices_alertOk (p : String) (ss : List Service) :
    ∀ a ∈ securityOptsServices p ss, alertOk p a := by
  induction ss with
  | nil =>
    intro a ha
    simp [securityOptsServices] at ha
  | cons s rest ih =>
    intro a ha
    rcases List.mem_append.mp ha with ha | ha
    · exact securityOptsService_alertOk p s a ha
    · exact ih a ha

/-- Every `sysctls`-loop alert satisfies `alertOk`. -/
theorem sysctlEntries_alertOk (p : String) (es : List String) :
    ∀ a ∈ sysctlEntries p es, alertOk p a := by
  induction es with
  | nil =>
    intro a ha
    simp [sysctlEntries] at ha
  | cons e rest ih =>
    intro a ha
    rcases List.mem_append.mp ha with ha | ha
    · split at ha
      · simp only [List.mem_singleton] at ha
        subst ha
        exact alertOk_loc _ _ _ _
          (str_append_ne_empty _ _ (by simp [ipv4Alert]))
      · simp at ha
    · exact ih a ha

/-- Every first-`cap_add`-loop alert satisfies `alertOk`. -/
theorem capEntriesFirst_alertOk (p : String) (cs : List String) :
    ∀ a ∈ capEntriesFirst p cs, alertOk p a := by
  induction cs with
  | nil =>
    intro a ha
    simp [capEntriesFirst] at ha
  | cons c rest ih =>
    intro a ha
    simp only [capEntriesFirst, List.append_assoc, List.mem_append] at ha
    rcases ha with ha | ha | ha
    · split at ha
      · simp only [List.mem_singleton] at ha
        subst ha
        exact alertOk_loc _ _ _ _ (by simp [netAdminAlert])
      · simp at ha
    · split at ha
      · simp only [List.mem_singleton] at ha
        subst ha
        exact alertOk_loc _ _ _ _ (by simp [allCapAlert])
      · simp at ha
    · exact ih a ha

/-- Every second-`cap_add`-loop alert satisfies `alertOk`. -/
theorem capEntriesSecond_alertOk (p : String) (cs : List String) :
    ∀ a ∈ capEntriesSecond p cs, alertOk p a := by
  induction cs with
  | nil =>
    intro a ha
    simp [capEntriesSecond] at ha
  | cons c rest ih =>
    intro a ha
    simp only [capEntriesSecond, List.append_assoc, List.mem_append] at ha
    rcases ha with ha | ha | ha
    · split at ha
      · simp only [List.mem_singleton] at ha
        subst ha
        exact alertOk_loc _ _ _ _ (by simp [netAdminAlert])
      · simp at ha
    · split at ha
      · simp only [List.mem_singleton] at ha
        subst ha
        exact alertOk_loc _ _ _ _ (by simp [sysAdminAlert])
      · simp at ha
    · exact ih a ha

/-- The `sysctls` header alert satisfies `alertOk` through its exception
branch. -/
theorem syscallsHeaderAlert_alertOk (p : String) : alertOk p syscallsHeaderAlert :=
  ⟨by simp [syscallsHeaderAlert], Or.inr ⟨Or.inl rfl, rfl⟩⟩

/-- The `cap_add` header alert satisfies `alertOk` through its exception
branch. -/
theorem capHeaderAlert_alertOk (p : String) : alertOk p capHeaderAlert :=
  ⟨by simp [capHeaderAlert], Or.inr ⟨Or.inr rfl, rfl⟩⟩

/-- Every per-service `KernalParameters` alert satisfies `alertOk`. -/
theorem kernalParametersService_alertOk (p : String) (s : Service) :
    ∀ a ∈ kernalParametersService p s, alertOk p a := by
  intro a ha
  unfold kernalParametersService at ha
  simp only [List.append_assoc, List.mem_append] at ha
  rcases ha with ha | ha | ha
  · split at ha
    · simp at ha
    · simp only [List.mem_cons] at ha
      rcases ha with ha | ha
      · subst ha
        exact syscallsHeaderAlert_alertOk p
      · exact sysctlEntries_alertOk p _ a ha
  · split at ha
    · simp at ha
    · simp only [List.mem_cons] at ha
      rcases ha with ha | ha
      · subst ha
        exact capHeaderAlert_alertOk p
      · exact capEntriesFirst_alertOk p _ a ha
  · split at ha
    · simp at ha
    · simp only [List.mem_cons] at ha
      rcases ha with ha | ha
      · subst ha
        exact capHeaderAlert_alertOk p
      · exact capEntriesSecond_alertOk p _ a ha

/-- Every `KernalParameters` alert satisfies `alertOk`. -/
theorem kernalParametersServices_alertOk (p : String) (ss : List Service) :
    ∀ a ∈ kernalParametersServices p ss, alertOk p a := by
  induction ss with
  | nil =>
    intro a ha
    simp [kernalParametersServices] at ha
  | cons s rest ih =>
    intro a ha
    rcases List.mem_append.mp ha with ha | ha
    · exact kernalParametersService_alertOk p s a ha
    · exact ih a ha

/-- C2 (amended).  When `checks d` completes, every returned alert has
non-empty details, and every alert carries `d`'s path as its location —
except the two `KernalParameters` header alerts ("Enabling extra
syscalls" and "Using extra Kernal Parameters"), which carry the default
empty path. -/
theorem checks_details_and_path (d : ComposeFile) (l : List Alert)
    (h : checks d = Option.some l) :
    ∀ a ∈ l, alertOk d.path a := by
  unfold checks at h
  cases hc : containerImagesCheck d with
  | none =>
    rw [hc] at h
    simp at h
  | some imgs =>
    rw [hc] at h
    injection h with h
    subst h
    intro a ha
    simp only [List.append_assoc, List.mem_append] at ha
    rcases ha with ha | ha | ha | ha | ha
    · exact composeVersion_alertOk d a ha
    · exact containerImagesServices_alertOk d.path d.compose.services imgs hc a ha
    · exact dockerSocketServices_alertOk d.path d.compose.services a ha
    · exact securityOptsServices_alertOk d.path d.compose.services a ha
    · exact kernalParametersServices_alertOk d.path d.compose.services a ha

/-- Witness for C2 (amended): the "Compose v1" alert of a version-1
document with path `f.yml` has non-empty details and location `f.yml`. -/
theorem checks_details_and_path_witness :
    alertOk "f.yml" ⟨RuleID.none, "Compose v1", Severity.medium, loc "f.yml"⟩ := by
  have h := checks_details_and_path ⟨"f.yml", ⟨"1", []⟩⟩
      [⟨RuleID.none, "Compose v1", Severity.medium, loc "f.yml"⟩] (by decide)
  exact h ⟨RuleID.none, "Compose v1", Severity.medium, loc "f.yml"⟩ (by decide)

/-- A document (path `docker-compose.yml`) whose only service has
`sysctls = []` and `security_opt = []`. -/
def cfHeaderDoc : ComposeFile :=
  ⟨"docker-compose.yml", ⟨"3.8",
    [⟨Option.none, Option.none, Option.some [], Option.some [], Option.none,
      Option.none⟩]⟩⟩

/-- Counterexample to C2 as stated: `checks` on `cfHeaderDoc` returns
exactly the `sysctls` header alert, whose location path is the default
empty string, not the document's path. -/
theorem checks_path_counterexample :
    cfHeaderDoc.path = "docker-compose.yml"
    ∧ checks cfHeaderDoc = Option.some [syscallsHeaderAlert]
    ∧ ¬ (∀ a ∈ (checks cfHeaderDoc).getD [], a.path.path = cfHeaderDoc.path) := by
  decide

end Quibble
